import Mathlib

/-!
Shallow embedding of the open-music-api backend (services and playlist
handlers) and verification of its specification claims.

The relational store is modelled as lists of rows; each SQL statement of
the source is translated into the corresponding list operation, with
`LEFT JOIN` expanded into an explicit join combinator.  Fallible service
methods (which `throw` typed errors in the source) become functions into
`Except Err _`.
-/

namespace OpenMusic

/-- The client-facing error kinds of the backend
(`InvariantError`, `NotFoundError`, `AuthorizationError`, plus the
validation kind raised by payload validators). -/
inductive Err where
  | invariant
  | notFound
  | authorization
  | validation
deriving DecidableEq, Repr

/-- A row of the `users` table. -/
structure UserRow where
  id : String
  username : String
  fullname : String
deriving DecidableEq, Repr

/-- A row of the `playlists` table: `(id, name, owner)`. -/
structure PlaylistRow where
  id : String
  name : String
  owner : String
deriving DecidableEq, Repr

/-- A row of the `collaborations` table: `(id, playlist_id, user_id)`. -/
structure CollabRow where
  id : String
  playlistId : String
  userId : String
deriving DecidableEq, Repr

/-- A row of the `songs` table (the columns the embedded queries read). -/
structure SongRow where
  id : String
  title : String
  performer : String
deriving DecidableEq, Repr

/-- A row of the `playlist_songs` table: `(id, playlist_id, song_id)`. -/
structure PlaylistSongRow where
  id : String
  playlistId : String
  songId : String
deriving DecidableEq, Repr

/-- A row of the `playlist_song_activities` table. -/
structure ActivityRow where
  id : String
  playlistId : String
  songId : String
  userId : String
  action : String
  time : String
deriving DecidableEq, Repr

/-- A row of the `user_album_likes` table: `(id, user_id, album_id)`. -/
structure LikeRow where
  id : String
  userId : String
  albumId : String
deriving DecidableEq, Repr

/-- The primary (PostgreSQL) store: one list of rows per table, in
storage order.  `INSERT` appends at the end. -/
structure DB where
  users : List UserRow
  playlists : List PlaylistRow
  collaborations : List CollabRow
  songs : List SongRow
  playlistSongs : List PlaylistSongRow
  activities : List ActivityRow
  likes : List LikeRow
deriving DecidableEq, Repr

/-- `SELECT * FROM playlists WHERE id = $1` followed by `result.rows[0]`:
the first stored row with the given id (ids are the table's primary key). -/
def firstPlaylist? (db : DB) (id : String) : Option PlaylistRow :=
  db.playlists.find? (fun p => p.id == id)

/-- `PlaylistsService.verifyPlaylistOwner` (part_013, lines 121-136):
`NotFoundError` when no playlist row has the given id, `AuthorizationError`
when `result.rows[0].owner !== owner`, success otherwise. -/
def verifyPlaylistOwner (db : DB) (id owner : String) : Except Err Unit :=
  match firstPlaylist? db id with
  | none => .error .notFound
  | some p => if p.owner != owner then .error .authorization else .ok ()

/-- `CollaborationsService.verifyCollaborator` (part_016, lines 87-98):
`AuthorizationError` when no `collaborations` row matches
`(playlist_id, user_id)`, success otherwise. -/
def verifyCollaborator (db : DB) (playlistId userId : String) : Except Err Unit :=
  if db.collaborations.any (fun c => c.playlistId == playlistId && c.userId == userId)
  then .ok ()
  else .error .authorization

/-- `PlaylistsService.verifyPlaylistAccess` (part_013, lines 147-157):
`verifyPlaylistOwner` inside a `try`; the `catch` rethrows only
`NotFoundError` and swallows every other error; control then always falls
through to `verifyCollaborator` — also when the owner check succeeded. -/
def verifyPlaylistAccess (db : DB) (id userId : String) : Except Err Unit :=
  match verifyPlaylistOwner db id userId with
  | .error .notFound => .error .notFound
  | _ => verifyCollaborator db id userId

/-- Tables of the primary store, used to log which stores a code path
queries. -/
inductive Table where
  | playlists
  | collaborations
  | users
  | songs
  | playlistSongs
  | activities
  | likes
deriving DecidableEq, Repr

/-- The primary-store queries `verifyPlaylistAccess` issues, in order:
the owner check always reads `playlists`; the collaborations read at the
end of the method runs unless the owner check raised `NotFoundError`. -/
def verifyPlaylistAccessQueries (db : DB) (id userId : String) : List Table :=
  match verifyPlaylistOwner db id userId with
  | .error .notFound => [.playlists]
  | _ => [.playlists, .collaborations]

/-- A playlist row with the given id exists in the store. -/
def PlaylistExists (db : DB) (id : String) : Prop :=
  ∃ p ∈ db.playlists, p.id = id

/-- A collaboration row `(playlistId, userId)` exists in the store. -/
def HasCollab (db : DB) (playlistId userId : String) : Prop :=
  ∃ c ∈ db.collaborations, c.playlistId = playlistId ∧ c.userId = userId

instance (db : DB) (id : String) : Decidable (PlaylistExists db id) := by
  unfold PlaylistExists; infer_instance

instance (db : DB) (p u : String) : Decidable (HasCollab db p u) := by
  unfold HasCollab; infer_instance

lemma firstPlaylist?_eq_none (db : DB) (id : String) :
    firstPlaylist? db id = none ↔ ¬ PlaylistExists db id := by
  simp [firstPlaylist?, List.find?_eq_none, PlaylistExists]

lemma verifyCollaborator_ok (db : DB) (p u : String) :
    verifyCollaborator db p u = .ok () ↔ HasCollab db p u := by
  simp only [verifyCollaborator, HasCollab]
  constructor
  · intro h
    by_cases hc : db.collaborations.any (fun c => c.playlistId == p && c.userId == u)
    · rcases List.any_eq_true.mp hc with ⟨c, hcmem, hcok⟩
      exact ⟨c, hcmem, by simpa using hcok⟩
    · simp [hc] at h
  · rintro ⟨c, hcmem, h1, h2⟩
    have : db.collaborations.any (fun c => c.playlistId == p && c.userId == u) = true :=
      List.any_eq_true.mpr ⟨c, hcmem, by simp [h1, h2]⟩
    simp [this]

lemma verifyCollaborator_err (db : DB) (p u : String) :
    verifyCollaborator db p u = .error .authorization ↔ ¬ HasCollab db p u := by
  have hok := verifyCollaborator_ok db p u
  unfold verifyCollaborator at hok ⊢
  by_cases hc : db.collaborations.any (fun c => c.playlistId == p && c.userId == u) <;>
    simp [hc] at hok ⊢ <;> tauto

lemma verifyPlaylistOwner_notFound (db : DB) (id owner : String) :
    verifyPlaylistOwner db id owner = .error .notFound ↔ ¬ PlaylistExists db id := by
  unfold verifyPlaylistOwner
  cases h : firstPlaylist? db id with
  | none => simp [firstPlaylist?_eq_none db id |>.mp h]
  | some p =>
      have hex : PlaylistExists db id := by
        have hmem := List.mem_of_find?_eq_some h
        have hid : p.id = id := by
          have := List.find?_some h
          simpa using this
        exact ⟨p, hmem, hid⟩
      by_cases ho : p.owner != owner <;> simp [ho, hex]

/-- Full characterisation of `verifyPlaylistAccess`:
it succeeds iff the playlist exists and a collaboration row for the caller
exists; `NotFoundError` iff the playlist is absent; `AuthorizationError`
otherwise.  Ownership alone never grants access. -/
lemma verifyPlaylistAccess_cases (db : DB) (id u : String) :
    (verifyPlaylistAccess db id u = .ok () ↔ PlaylistExists db id ∧ HasCollab db id u)
    ∧ (verifyPlaylistAccess db id u = .error .notFound ↔ ¬ PlaylistExists db id)
    ∧ (verifyPlaylistAccess db id u = .error .authorization ↔
        PlaylistExists db id ∧ ¬ HasCollab db id u) := by
  unfold verifyPlaylistAccess
  cases hvo : verifyPlaylistOwner db id u with
  | ok v =>
      have hex : PlaylistExists db id := by
        by_contra hne
        have := (verifyPlaylistOwner_notFound db id u).mpr hne
        rw [hvo] at this
        exact Except.noConfusion this
      refine ⟨?_, ?_, ?_⟩
      · simp [verifyCollaborator_ok, hex]
      · constructor
        · intro h
          cases v
          unfold verifyCollaborator at h
          by_cases hc : db.collaborations.any (fun c => c.playlistId == id && c.userId == u) <;>
            simp [hc] at h
        · intro h; exact absurd hex h
      · cases v; simp [verifyCollaborator_err, hex]
  | error e =>
      cases e with
      | notFound =>
          have hne : ¬ PlaylistExists db id :=
            (verifyPlaylistOwner_notFound db id u).mp hvo
          refine ⟨?_, ?_, ?_⟩
          · simp [hne]
          · simp [hne]
          · simp [hne]
      | authorization =>
          have hex : PlaylistExists db id := by
            by_contra hne
            have := (verifyPlaylistOwner_notFound db id u).mpr hne
            rw [hvo] at this
            simp at this
          refine ⟨?_, ?_, ?_⟩
          · simp [verifyCollaborator_ok, hex]
          · constructor
            · intro h
              unfold verifyCollaborator at h
              by_cases hc : db.collaborations.any (fun c => c.playlistId == id && c.userId == u) <;>
                simp [hc] at h
            · intro h; exact absurd hex h
          · simp [verifyCollaborator_err, hex]
      | invariant =>
          exfalso
          unfold verifyPlaylistOwner at hvo
          cases hfp : firstPlaylist? db id with
          | none => rw [hfp] at hvo; simp at hvo
          | some p =>
              rw [hfp] at hvo
              by_cases ho : p.owner != u <;> simp [ho] at hvo
      | validation =>
          exfalso
          unfold verifyPlaylistOwner at hvo
          cases hfp : firstPlaylist? db id with
          | none => rw [hfp] at hvo; simp at hvo
          | some p =>
              rw [hfp] at hvo
              by_cases ho : p.owner != u <;> simp [ho] at hvo

/-- SQL `LEFT JOIN`: every row of `xs` joined with each row of `ys`
matching the `ON` condition, or paired with `NULL` (`none`) when no row
of `ys` matches. -/
def leftJoin {α β : Type} (xs : List α) (ys : List β) (cond : α → β → Bool) :
    List (α × Option β) :=
  xs.flatMap fun x =>
    match ys.filter (fun y => cond x y) with
    | [] => [(x, none)]
    | z :: zs => (z :: zs).map (fun y => (x, some y))

lemma mem_leftJoin_fst {α β : Type} {xs : List α} {ys : List β}
    {cond : α → β → Bool} {x : α} {b : Option β}
    (h : (x, b) ∈ leftJoin xs ys cond) : x ∈ xs := by
  unfold leftJoin at h
  rw [List.mem_flatMap] at h
  obtain ⟨x', hx', hmem⟩ := h
  cases hfil : ys.filter (fun y => cond x' y) with
  | nil =>
      rw [hfil] at hmem
      simp at hmem
      rw [hmem.1]; exact hx'
  | cons z zs =>
      rw [hfil] at hmem
      rw [List.mem_map] at hmem
      obtain ⟨y, -, hy⟩ := hmem
      cases hy
      exact hx'

lemma mem_leftJoin_some_iff {α β : Type} (xs : List α) (ys : List β)
    (cond : α → β → Bool) (x : α) (y : β) :
    (x, some y) ∈ leftJoin xs ys cond ↔ x ∈ xs ∧ y ∈ ys ∧ cond x y = true := by
  constructor
  · intro h
    refine ⟨mem_leftJoin_fst h, ?_⟩
    unfold leftJoin at h
    rw [List.mem_flatMap] at h
    obtain ⟨x', hx', hmem⟩ := h
    cases hfil : ys.filter (fun y => cond x' y) with
    | nil => rw [hfil] at hmem; simp at hmem
    | cons z zs =>
        rw [hfil] at hmem
        rw [List.mem_map] at hmem
        obtain ⟨y', hy', heq⟩ := hmem
        obtain ⟨h1, h2⟩ := Prod.mk.injEq .. ▸ heq
        cases h1; cases Option.some.injEq .. ▸ h2
        have : y ∈ ys.filter (fun y => cond x y) := hfil ▸ hy'
        exact ⟨(List.mem_filter.mp this).1, (List.mem_filter.mp this).2⟩
  · rintro ⟨hx, hy, hcond⟩
    unfold leftJoin
    rw [List.mem_flatMap]
    refine ⟨x, hx, ?_⟩
    have hyfil : y ∈ ys.filter (fun y => cond x y) := List.mem_filter.mpr ⟨hy, hcond⟩
    cases hfil : ys.filter (fun y => cond x y) with
    | nil => rw [hfil] at hyfil; simp at hyfil
    | cons z zs =>
        rw [hfil] at hyfil
        exact List.mem_map.mpr ⟨y, hyfil, rfl⟩

lemma exists_mem_leftJoin {α β : Type} (xs : List α) (ys : List β)
    (cond : α → β → Bool) {x : α} (hx : x ∈ xs) :
    ∃ b, (x, b) ∈ leftJoin xs ys cond := by
  unfold leftJoin
  cases hfil : ys.filter (fun y => cond x y) with
  | nil =>
      exact ⟨none, List.mem_flatMap.mpr ⟨x, hx, by rw [hfil]; simp⟩⟩
  | cons z zs =>
      exact ⟨some z, List.mem_flatMap.mpr ⟨x, hx,
        by rw [hfil]; exact List.mem_map.mpr ⟨z, List.mem_cons_self z zs, rfl⟩⟩⟩

/-- SQL comparison `collaborations.user_id = $1` on the right column of a
`LEFT JOIN`: a `NULL` (`none`) compares unequal. -/
def collabUserMatches (bc : Option CollabRow) (u : String) : Bool :=
  match bc with
  | some c => c.userId == u
  | none => false

/-- An output row of `PlaylistsService.getPlaylists`:
`playlists.id, playlists.name, users.username` (the username is `NULL`
when the owner has no users row). -/
structure PlaylistInfo where
  id : String
  name : String
  username : Option String
deriving DecidableEq, Repr

/-- `PlaylistsService.getPlaylists` (part_013, lines 53-64):
`SELECT playlists.id, playlists.name, users.username FROM playlists
LEFT JOIN users ON users.id = playlists.owner
LEFT JOIN collaborations ON collaborations.playlist_id = playlists.id
WHERE playlists.owner = $1 OR collaborations.user_id = $1`. -/
def getPlaylists (db : DB) (owner : String) : List PlaylistInfo :=
  ((leftJoin (leftJoin db.playlists db.users fun p u => u.id == p.owner)
      db.collaborations fun pu c => c.playlistId == pu.1.id).filter
    (fun r => r.1.1.owner == owner || collabUserMatches r.2 owner)).map
    (fun r => ⟨r.1.1.id, r.1.1.name, r.1.2.map (fun u => u.username)⟩)

/-- A sample store: user `u1` owns playlist `p1`; the collaborations
table is empty (the owner's auto-created collaboration row has been
removed, as `deleteCollaboration` permits). -/
def dbOwnerNoCollab : DB :=
  { users := [⟨"u1", "alice", "Alice A"⟩]
    playlists := [⟨"p1", "Road Trip", "u1"⟩]
    collaborations := []
    songs := []
    playlistSongs := []
    activities := []
    likes := [] }

/-- The same store with the owner's collaboration row present, as
`addPlaylist` creates it. -/
def dbOwnerWithCollab : DB :=
  { dbOwnerNoCollab with collaborations := [⟨"collab-1", "p1", "u1"⟩] }

/-- C1, counterexample.  In a store where `u1` owns playlist `p1` but no
collaboration row `(p1, u1)` exists, the claim says `verifyPlaylistAccess`
succeeds (owner), yet the code fails with `AuthorizationError`: the
collaborator check at the end of the method runs unconditionally. -/
theorem c1_counterexample_owner_without_collab_row_denied :
    (∃ p ∈ dbOwnerNoCollab.playlists, p.id = "p1" ∧ p.owner = "u1")
    ∧ ¬ HasCollab dbOwnerNoCollab "p1" "u1"
    ∧ verifyPlaylistAccess dbOwnerNoCollab "p1" "u1" = .error .authorization := by
  refine ⟨⟨⟨"p1", "Road Trip", "u1"⟩, by simp [dbOwnerNoCollab], rfl, rfl⟩, ?_, rfl⟩
  rintro ⟨c, hc, -⟩
  simp [dbOwnerNoCollab] at hc

/-- C1, amended.  For every store, playlist id `P` and user `U`:
`verifyPlaylistAccess(P, U)` succeeds iff `P` exists and a collaboration
row `(P, U)` exists; it fails with `AuthorizationError` when `P` exists
but no such row does — even when `U` is the owner; and when `P` does not
exist it fails with `NotFoundError` regardless of `U`. -/
theorem c1_amended_access_characterisation (db : DB) (pid uid : String) :
    (verifyPlaylistAccess db pid uid = .ok ()
      ↔ PlaylistExists db pid ∧ HasCollab db pid uid)
    ∧ (verifyPlaylistAccess db pid uid = .error .notFound
      ↔ ¬ PlaylistExists db pid)
    ∧ (verifyPlaylistAccess db pid uid = .error .authorization
      ↔ PlaylistExists db pid ∧ ¬ HasCollab db pid uid) :=
  verifyPlaylistAccess_cases db pid uid

/-- C2, counterexample.  `u1` is the owner of `p1`, so
`verifyPlaylistOwner` succeeds; yet `verifyPlaylistAccess` fails when the
collaborations table is empty and succeeds when it holds `(p1, u1)` —
the collaborator check is executed after a successful owner check, and
the outcome does depend on the state of the collaborations table. -/
theorem c2_counterexample_owner_outcome_depends_on_collabs :
    verifyPlaylistOwner dbOwnerNoCollab "p1" "u1" = .ok ()
    ∧ verifyPlaylistAccess dbOwnerNoCollab "p1" "u1" = .error .authorization
    ∧ verifyPlaylistOwner dbOwnerWithCollab "p1" "u1" = .ok ()
    ∧ verifyPlaylistAccess dbOwnerWithCollab "p1" "u1" = .ok ()
    ∧ verifyPlaylistAccessQueries dbOwnerNoCollab "p1" "u1"
        = [.playlists, .collaborations] :=
  ⟨rfl, rfl, rfl, rfl, rfl⟩

/-- C2, amended.  When `verifyPlaylistOwner(P, U)` succeeds,
`verifyPlaylistAccess(P, U)` still consults the collaboration store — it
issues the collaborations query and its outcome equals
`verifyCollaborator(P, U)`, so it is not identical across states of the
collaborations table. -/
theorem c2_amended_owner_ok_still_queries_collabs
    (db : DB) (pid uid : String)
    (h : verifyPlaylistOwner db pid uid = .ok ()) :
    verifyPlaylistAccess db pid uid = verifyCollaborator db pid uid
    ∧ verifyPlaylistAccessQueries db pid uid = [.playlists, .collaborations] := by
  unfold verifyPlaylistAccess verifyPlaylistAccessQueries
  rw [h]
  exact ⟨rfl, rfl⟩

/-- Witness for the C2 amended theorem at a concrete store. -/
theorem c2_amended_witness :
    verifyPlaylistOwner dbOwnerWithCollab "p1" "u1" = .ok ()
    ∧ (verifyPlaylistAccess dbOwnerWithCollab "p1" "u1"
        = verifyCollaborator dbOwnerWithCollab "p1" "u1"
      ∧ verifyPlaylistAccessQueries dbOwnerWithCollab "p1" "u1"
        = [.playlists, .collaborations]) :=
  ⟨rfl, c2_amended_owner_ok_still_queries_collabs dbOwnerWithCollab "p1" "u1" rfl⟩

/-- A store where playlist `p1` (owner `u1`) carries two collaboration
rows: the owner's auto-created one and a second collaborator `u2`. -/
def dbSharedPlaylist : DB :=
  { users := [⟨"u1", "alice", "Alice A"⟩, ⟨"u2", "bob", "Bob B"⟩]
    playlists := [⟨"p1", "Road Trip", "u1"⟩]
    collaborations := [⟨"collab-1", "p1", "u1"⟩, ⟨"collab-2", "p1", "u2"⟩]
    songs := []
    playlistSongs := []
    activities := []
    likes := [] }

/-- C10.  `getPlaylists(U)` returns exactly the playlists `U` owns
together with the playlists that have a collaboration row for `U`; and a
playlist with several collaborators contributes duplicate rows (in the
sample store, `p1` with two collaboration rows is listed twice for its
owner). -/
theorem c10_getPlaylists_owned_and_shared (db : DB) (u pid : String) :
    (pid ∈ (getPlaylists db u).map (fun r => r.id)
      ↔ (∃ p ∈ db.playlists, p.id = pid ∧ p.owner = u)
        ∨ (∃ p ∈ db.playlists, p.id = pid ∧ HasCollab db pid u))
    ∧ (getPlaylists dbSharedPlaylist "u1").map (fun r => r.id) = ["p1", "p1"] := by
  constructor
  · rw [List.mem_map]
    constructor
    · rintro ⟨info, hinfo, hid⟩
      unfold getPlaylists at hinfo
      rw [List.mem_map] at hinfo
      obtain ⟨r, hr, hproj⟩ := hinfo
      rw [List.mem_filter] at hr
      obtain ⟨hrmem, hrpred⟩ := hr
      obtain ⟨⟨p, bu⟩, bc⟩ := r
      have hpu : (p, bu) ∈ leftJoin db.playlists db.users fun p u => u.id == p.owner :=
        mem_leftJoin_fst hrmem
      have hp : p ∈ db.playlists := mem_leftJoin_fst hpu
      have hpid : p.id = pid := by
        cases hproj; simpa using hid
      rw [Bool.or_eq_true] at hrpred
      cases hrpred with
      | inl howner =>
          exact Or.inl ⟨p, hp, hpid, by simpa using howner⟩
      | inr hcol =>
          cases bc with
          | none => simp [collabUserMatches] at hcol
          | some c =>
              have hcmem := (mem_leftJoin_some_iff _ db.collaborations _ (p, bu) c).mp hrmem
              refine Or.inr ⟨p, hp, hpid, c, hcmem.2.1, ?_, ?_⟩
              · have : c.playlistId == p.id := hcmem.2.2
                rw [hpid] at this; simpa using this
              · simpa [collabUserMatches] using hcol
    · intro h
      have hbase : ∃ p ∈ db.playlists, p.id = pid ∧
          (p.owner = u ∨ ∃ c ∈ db.collaborations, c.playlistId = pid ∧ c.userId = u) := by
        cases h with
        | inl h => obtain ⟨p, hp, h1, h2⟩ := h; exact ⟨p, hp, h1, Or.inl h2⟩
        | inr h => obtain ⟨p, hp, h1, h2⟩ := h; exact ⟨p, hp, h1, Or.inr h2⟩
      obtain ⟨p, hp, hpid, hcase⟩ := hbase
      obtain ⟨bu, hbu⟩ :=
        exists_mem_leftJoin db.playlists db.users (fun p u => u.id == p.owner) hp
      cases hcase with
      | inl howner =>
          obtain ⟨bc, hbc⟩ := exists_mem_leftJoin _ db.collaborations
            (fun pu c => c.playlistId == pu.1.id) hbu
          refine ⟨⟨p.id, p.name, bu.map (fun u => u.username)⟩, ?_, hpid⟩
          unfold getPlaylists
          rw [List.mem_map]
          exact ⟨((p, bu), bc), List.mem_filter.mpr ⟨hbc, by simp [howner]⟩, rfl⟩
      | inr hcol =>
          obtain ⟨c, hc, hcpid, hcu⟩ := hcol
          have hbc : ((p, bu), some c) ∈ leftJoin
              (leftJoin db.playlists db.users fun p u => u.id == p.owner)
              db.collaborations (fun pu c => c.playlistId == pu.1.id) :=
            (mem_leftJoin_some_iff _ _ _ (p, bu) c).mpr
              ⟨hbu, hc, by simp [hcpid, hpid]⟩
          refine ⟨⟨p.id, p.name, bu.map (fun u => u.username)⟩, ?_, hpid⟩
          unfold getPlaylists
          rw [List.mem_map]
          exact ⟨((p, bu), some c),
            List.mem_filter.mpr ⟨hbc, by simp [collabUserMatches, hcu]⟩, rfl⟩
  · rfl

/-- An output row of `PlaylistSongActivitiesService.getPlaylistSongActivities`
(src/services/postgres/PlaylistSongActivitiesService.js, lines 46-56):
`playlist_song_activities.*, users.username`.  There is no title column. -/
structure ActivityJoined where
  id : String
  playlistId : String
  songId : String
  userId : String
  action : String
  time : String
  username : Option String
deriving DecidableEq, Repr

/-- `PlaylistSongActivitiesService.getPlaylistSongActivities`
(src/services/postgres/PlaylistSongActivitiesService.js, lines 46-56):
`SELECT playlist_song_activities.*, users.username FROM
playlist_song_activities LEFT JOIN users ON users.id =
playlist_song_activities.user_id WHERE playlist_song_activities.playlist_id
= $1`.  The `songs` table is never touched. -/
def getPlaylistSongActivities (db : DB) (playlistId : String) : List ActivityJoined :=
  ((leftJoin db.activities db.users fun a u => u.id == a.userId).filter
    (fun r => r.1.playlistId == playlistId)).map
    (fun r => ⟨r.1.id, r.1.playlistId, r.1.songId, r.1.userId, r.1.action, r.1.time,
      r.2.map (fun u => u.username)⟩)

/-- The record shape the spec describes for the activity list: username
and song title joined onto each activity row. -/
structure ActivitySpecRecord where
  username : Option String
  title : Option String
  action : String
  time : String
deriving DecidableEq, Repr

/-- The activity list as the spec describes it (§4.3 `list(playlistId)`:
"all activity rows for a playlist joined with the acting user's display
name and the affected song's title").  Declared only to compare the
spec's description against the embedded source query. -/
def specActivitiesList (db : DB) (playlistId : String) : List ActivitySpecRecord :=
  ((leftJoin (leftJoin db.activities db.users fun a u => u.id == a.userId)
      db.songs fun au s => s.id == au.1.songId).filter
    (fun r => r.1.1.playlistId == playlistId)).map
    (fun r => ⟨r.1.2.map (fun u => u.username), r.2.map (fun s => s.title),
      r.1.1.action, r.1.1.time⟩)

/-- Two stores identical except for the title of song `s1`, which an
activity of playlist `p1` references. -/
def dbTitleA : DB :=
  { users := [⟨"u1", "alice", "Alice A"⟩]
    playlists := [⟨"p1", "Road Trip", "u1"⟩]
    collaborations := [⟨"collab-1", "p1", "u1"⟩]
    songs := [⟨"s1", "Song One", "X"⟩]
    playlistSongs := [⟨"ps-1", "p1", "s1"⟩]
    activities := [⟨"a1", "p1", "s1", "u1", "add", "t0"⟩]
    likes := [] }

/-- `dbTitleA` with the title of `s1` changed. -/
def dbTitleB : DB :=
  { dbTitleA with songs := [⟨"s1", "Song Two", "X"⟩] }

/-- C7, counterexample.  The live query joins only `users`, never
`songs`: its output is identical on two stores that differ only in the
referenced song's title, whereas a list that included the affected
song's title (as the claim states, embodied by `specActivitiesList`)
would have to differ. -/
theorem c7_counterexample_no_song_title_in_output :
    getPlaylistSongActivities dbTitleA "p1" = getPlaylistSongActivities dbTitleB "p1"
    ∧ specActivitiesList dbTitleA "p1" ≠ specActivitiesList dbTitleB "p1" := by
  exact ⟨rfl, by decide⟩

lemma filter_eq_find?_toList {α : Type} (q : α → Bool) (ys : List α)
    (hq : ys.Pairwise fun a b => ¬(q a = true ∧ q b = true)) :
    ys.filter q = (ys.find? q).toList := by
  induction ys with
  | nil => rfl
  | cons y ys ih =>
      rw [List.pairwise_cons] at hq
      by_cases hy : q y
      · have hnone : ys.filter q = [] := by
          apply List.filter_eq_nil_iff.mpr
          intro b hb hqb
          exact hq.1 b hb ⟨hy, hqb⟩
        simp [List.filter_cons, List.find?_cons, hy, hnone]
      · simp only [List.filter_cons, List.find?_cons]
        rw [if_neg hy]
        cases hqy : q y with
        | true => exact absurd hqy hy
        | false => exact ih hq.2

lemma leftJoin_eq_map_of_unique {α β : Type} (xs : List α) (ys : List β)
    (cond : α → β → Bool)
    (h : ∀ x ∈ xs, ys.filter (fun y => cond x y) = (ys.find? (fun y => cond x y)).toList) :
    leftJoin xs ys cond = xs.map (fun x => (x, ys.find? (fun y => cond x y))) := by
  induction xs with
  | nil => rfl
  | cons x xs ih =>
      unfold leftJoin
      rw [List.flatMap_cons]
      have hx := h x (List.mem_cons_self x xs)
      have hrest : leftJoin xs ys cond
          = xs.map (fun x => (x, ys.find? (fun y => cond x y))) :=
        ih (fun a ha => h a (List.mem_cons_of_mem x ha))
      unfold leftJoin at hrest
      rw [hrest, List.map_cons]
      cases hfind : ys.find? (fun y => cond x y) with
      | none => rw [hfind] at hx; rw [hx]; rfl
      | some z => rw [hfind] at hx; rw [hx]; rfl

lemma leftJoin_filter_left {α β : Type} (xs : List α) (ys : List β)
    (cond : α → β → Bool) (q : α → Bool) :
    (leftJoin xs ys cond).filter (fun r => q r.1)
      = leftJoin (xs.filter q) ys cond := by
  induction xs with
  | nil => rfl
  | cons x xs ih =>
      unfold leftJoin
      rw [List.flatMap_cons, List.filter_append, List.filter_cons]
      unfold leftJoin at ih
      by_cases hx : q x
      · rw [if_pos hx, List.flatMap_cons, ih]
        congr 1
        cases hfil : ys.filter (fun y => cond x y) with
        | nil => simp [hx]
        | cons z zs =>
            apply List.filter_eq_self.mpr
            intro r hr
            rw [List.mem_map] at hr
            obtain ⟨y, -, hy⟩ := hr
            subst hy
            simpa using hx
      · rw [if_neg hx, ← ih]
        cases hfil : ys.filter (fun y => cond x y) with
        | nil => simp [hx]
        | cons z zs => simp [List.filter_map, Function.comp_def, hx]

/-- C7, amended.  With unique user ids (the `users` primary key),
`getPlaylistSongActivities(P)` returns one record per stored activity row
of `P`, in storage order, carrying every activity column plus the acting
user's username — and no song title: the output is unchanged under any
replacement of the `songs` table. -/
theorem c7_amended_activities_username_no_title (db : DB) (pid : String)
    (hU : db.users.Pairwise fun a b => a.id ≠ b.id) :
    getPlaylistSongActivities db pid
      = (db.activities.filter (fun a => a.playlistId == pid)).map
          (fun a => ⟨a.id, a.playlistId, a.songId, a.userId, a.action, a.time,
            (db.users.find? (fun u => u.id == a.userId)).map (fun u => u.username)⟩)
    ∧ ∀ songs' : List SongRow,
        getPlaylistSongActivities { db with songs := songs' } pid
          = getPlaylistSongActivities db pid := by
  constructor
  · unfold getPlaylistSongActivities
    have h1 := congrArg (List.map (fun (r : ActivityRow × Option UserRow) =>
        (⟨r.1.id, r.1.playlistId, r.1.songId, r.1.userId, r.1.action, r.1.time,
          r.2.map (fun u => u.username)⟩ : ActivityJoined)))
      (leftJoin_filter_left db.activities db.users (fun a u => u.id == a.userId)
        (fun a => a.playlistId == pid))
    refine h1.trans ?_
    have h2 : leftJoin (db.activities.filter (fun a => a.playlistId == pid)) db.users
        (fun a u => u.id == a.userId)
        = (db.activities.filter (fun a => a.playlistId == pid)).map
            (fun a => (a, db.users.find? (fun u => u.id == a.userId))) := by
      apply leftJoin_eq_map_of_unique
      intro a _
      apply filter_eq_find?_toList
      refine hU.imp ?_
      intro u1 u2 hne hq
      apply hne
      have e1 : u1.id = a.userId := by simpa using hq.1
      have e2 : u2.id = a.userId := by simpa using hq.2
      rw [e1, e2]
    rw [h2, List.map_map]
    rfl
  · intro songs'
    rfl

/-- Witness for the C7 amended theorem at a concrete store. -/
theorem c7_amended_witness :
    (dbTitleA.users.Pairwise fun a b => a.id ≠ b.id)
    ∧ (getPlaylistSongActivities dbTitleA "p1"
        = (dbTitleA.activities.filter (fun a => a.playlistId == "p1")).map
            (fun a => ⟨a.id, a.playlistId, a.songId, a.userId, a.action, a.time,
              (dbTitleA.users.find? (fun u => u.id == a.userId)).map
                (fun u => u.username)⟩)
      ∧ ∀ songs' : List SongRow,
          getPlaylistSongActivities { dbTitleA with songs := songs' } "p1"
            = getPlaylistSongActivities dbTitleA "p1") := by
  refine ⟨?_, c7_amended_activities_username_no_title dbTitleA "p1" ?_⟩ <;>
    · unfold dbTitleA
      simp

/-- `AlbumLikesService.verifyLikeAlbum` (part_015, lines 53-64):
`InvariantError` when a `user_album_likes` row `(user_id, album_id)`
already exists, success otherwise. -/
def verifyLikeAlbum (db : DB) (userId albumId : String) : Except Err Unit :=
  if db.likes.any (fun l => l.userId == userId && l.albumId == albumId)
  then .error .invariant
  else .ok ()

/-- `AlbumLikesService.addLikeAlbum` (part_015, lines 11-28):
`verifyLikeAlbum` first (so a duplicate like fails before any insert),
then the insert of the new row.  `newId` stands for the generated
`like-<nanoid>`. -/
def addLikeAlbum (db : DB) (newId userId albumId : String) :
    Except Err (String × DB) :=
  match verifyLikeAlbum db userId albumId with
  | .error e => .error e
  | .ok () => .ok (newId, { db with likes := db.likes ++ [⟨newId, userId, albumId⟩] })

/-- `AlbumLikesService.deleteLikeAlbum` (part_015, lines 40-51):
`DELETE FROM user_album_likes WHERE user_id = $1 AND album_id = $2
RETURNING id`; `NotFoundError` when no row was deleted. -/
def deleteLikeAlbum (db : DB) (userId albumId : String) : Except Err DB :=
  if db.likes.any (fun l => l.userId == userId && l.albumId == albumId)
  then .ok { db with likes :=
      db.likes.filter (fun l => !(l.userId == userId && l.albumId == albumId)) }
  else .error .notFound

/-- A like row `(userId, albumId)` exists in the store. -/
def HasLike (db : DB) (userId albumId : String) : Prop :=
  ∃ l ∈ db.likes, l.userId = userId ∧ l.albumId = albumId

instance (db : DB) (u a : String) : Decidable (HasLike db u a) := by
  unfold HasLike; infer_instance

lemma hasLike_any (db : DB) (u a : String) :
    db.likes.any (fun l => l.userId == u && l.albumId == a) = true ↔ HasLike db u a := by
  rw [List.any_eq_true]
  unfold HasLike
  constructor
  · rintro ⟨l, hl, hq⟩
    exact ⟨l, hl, by simpa using hq⟩
  · rintro ⟨l, hl, h1, h2⟩
    exact ⟨l, hl, by simp [h1, h2]⟩

/-- C8.  With a like row `(U, A)` present: `addLikeAlbum` fails with
`InvariantError` (and inserts nothing — no state is produced);
`deleteLikeAlbum` succeeds, removing the `(U, A)` rows and nothing else;
and a second `deleteLikeAlbum` fails with `NotFoundError`. -/
theorem c8_like_unlike_unlike (db : DB) (u a newId : String)
    (h : HasLike db u a) :
    addLikeAlbum db newId u a = .error .invariant
    ∧ ∃ db', deleteLikeAlbum db u a = .ok db'
        ∧ ¬ HasLike db' u a
        ∧ (∀ l ∈ db.likes, ¬(l.userId = u ∧ l.albumId = a) → l ∈ db'.likes)
        ∧ (∀ l ∈ db'.likes, l ∈ db.likes)
        ∧ deleteLikeAlbum db' u a = .error .notFound := by
  have hany : db.likes.any (fun l => l.userId == u && l.albumId == a) = true :=
    (hasLike_any db u a).mpr h
  refine ⟨?_, ?_⟩
  · unfold addLikeAlbum verifyLikeAlbum
    rw [hany]
    rfl
  · refine ⟨{ db with likes :=
        db.likes.filter (fun l => !(l.userId == u && l.albumId == a)) }, ?_, ?_, ?_, ?_, ?_⟩
    · unfold deleteLikeAlbum
      rw [hany]
      rfl
    · rintro ⟨l, hl, h1, h2⟩
      have := (List.mem_filter.mp hl).2
      simp [h1, h2] at this
    · intro l hl hne
      refine List.mem_filter.mpr ⟨hl, ?_⟩
      simp only [Bool.not_eq_eq_eq_not, Bool.not_true, Bool.and_eq_false_imp]
      intro h1
      by_contra h2
      exact hne ⟨by simpa using h1, by simpa using h2⟩
    · intro l hl
      exact (List.mem_filter.mp hl).1
    · unfold deleteLikeAlbum
      have : ({ db with likes :=
          db.likes.filter (fun l => !(l.userId == u && l.albumId == a)) } : DB).likes.any
            (fun l => l.userId == u && l.albumId == a) = false := by
        rw [List.any_eq_false]
        intro l hl
        have hmem := (List.mem_filter.mp hl).2
        simp only [Bool.not_eq_eq_eq_not, Bool.not_true] at hmem
        simp [hmem]
      rw [this]
      rfl

/-- A store holding the single like row `(u1, al1)`. -/
def dbLiked : DB :=
  { users := [⟨"u1", "alice", "Alice A"⟩]
    playlists := []
    collaborations := []
    songs := []
    playlistSongs := []
    activities := []
    likes := [⟨"like-1", "u1", "al1"⟩] }

/-- Witness for C8 at a concrete store. -/
theorem c8_like_unlike_unlike_witness :
    HasLike dbLiked "u1" "al1"
    ∧ (addLikeAlbum dbLiked "like-2" "u1" "al1" = .error .invariant
      ∧ ∃ db', deleteLikeAlbum dbLiked "u1" "al1" = .ok db'
          ∧ ¬ HasLike db' "u1" "al1"
          ∧ (∀ l ∈ dbLiked.likes, ¬(l.userId = "u1" ∧ l.albumId = "al1") → l ∈ db'.likes)
          ∧ (∀ l ∈ db'.likes, l ∈ dbLiked.likes)
          ∧ deleteLikeAlbum db' "u1" "al1" = .error .notFound) :=
  ⟨⟨⟨"like-1", "u1", "al1"⟩, by simp [dbLiked], rfl, rfl⟩,
    c8_like_unlike_unlike dbLiked "u1" "al1" "like-2"
      ⟨⟨"like-1", "u1", "al1"⟩, by simp [dbLiked], rfl, rfl⟩⟩

/-- The owner of the first `playlists` row with the given id, as
`verifyPlaylistOwner` reads it (`result.rows[0].owner`). -/
def ownerOf? (db : DB) (pid : String) : Option String :=
  (firstPlaylist? db pid).map (fun p => p.owner)

/-- A message published on the export queue. -/
structure QueueMessage where
  channel : String
  playlistId : String
  targetEmail : String
deriving DecidableEq, Repr

/-- `ExportsHandler.postExportPlaylistHandler` (part_004, lines 12-31):
payload validation (assumed passed), then `verifyPlaylistOwner`, then a
single publish of `{playlistId, targetEmail}` on `export:playlist`.
The producer (`ProducerService.sendMessage`) is not under src/ and is
modelled from the spec: "publishes a playlist-export request onto a
queue"; the handler's result carries the list of published messages. -/
def postExportPlaylistHandler (db : DB) (playlistId userId targetEmail : String) :
    Except Err (List QueueMessage) :=
  match verifyPlaylistOwner db playlistId userId with
  | .error e => .error e
  | .ok () => .ok [⟨"export:playlist", playlistId, targetEmail⟩]

/-- C9.  The playlist-export endpoint is owner-only: it publishes the
export message iff the caller is the playlist's owner; any other caller
(collaborator or not) gets `AuthorizationError` with nothing published;
a nonexistent playlist gives `NotFoundError`. -/
theorem c9_export_owner_only (db : DB) (pid uid email : String) :
    (postExportPlaylistHandler db pid uid email
        = .ok [⟨"export:playlist", pid, email⟩]
      ↔ ownerOf? db pid = some uid)
    ∧ (postExportPlaylistHandler db pid uid email = .error .notFound
      ↔ ¬ PlaylistExists db pid)
    ∧ (postExportPlaylistHandler db pid uid email = .error .authorization
      ↔ ∃ w, ownerOf? db pid = some w ∧ w ≠ uid) := by
  unfold postExportPlaylistHandler verifyPlaylistOwner ownerOf?
  cases hfp : firstPlaylist? db pid with
  | none =>
      refine ⟨by simp, ?_, by simp⟩
      simp [(firstPlaylist?_eq_none db pid).mp hfp]
  | some p =>
      have hex : PlaylistExists db pid := by
        have hmem := List.mem_of_find?_eq_some hfp
        have hid : p.id = pid := by simpa using List.find?_some hfp
        exact ⟨p, hmem, hid⟩
      by_cases ho : p.owner = uid
      · simp [ho, hex]
      · have : (p.owner != uid) = true := by simpa using ho
        simp [this, hex, ho]

/-- `UsersService.getUserById` (src/services/postgres/UsersService.js,
lines 78-91): `NotFoundError` when no `users` row has the id. -/
def getUserById (db : DB) (id : String) : Except Err UserRow :=
  match db.users.find? (fun u => u.id == id) with
  | none => .error .notFound
  | some u => .ok u

/-- `CollaborationsService.addCollaboration` (part_016, lines 35-52):
verifies the user exists via `getUserById`, then inserts the
`collaborations` row.  `newId` stands for the generated
`collab-<nanoid>`. -/
def addCollaboration (db : DB) (newId playlistId userId : String) :
    Except Err (String × DB) :=
  match getUserById db userId with
  | .error e => .error e
  | .ok _ => .ok (newId, { db with collaborations :=
      db.collaborations ++ [⟨newId, playlistId, userId⟩] })

/-- `PlaylistsService.addPlaylist` (part_013, lines 27-44): inserts the
playlist row, then calls `addCollaboration` for the owner.  The source
runs no transaction, so the playlist insert persists even when the
collaboration step throws; the store is therefore returned in both
outcomes.  `newPid`/`newCid` stand for the generated ids. -/
def addPlaylist (db : DB) (newPid newCid name owner : String) :
    (Except Err String) × DB :=
  let db1 := { db with playlists := db.playlists ++ [⟨newPid, name, owner⟩] }
  match addCollaboration db1 newCid newPid owner with
  | .error e => (.error e, db1)
  | .ok (_, db2) => (.ok newPid, db2)

/-- C6.  A successful `addPlaylist({name, owner})` returning playlist id
`P` creates exactly one collaboration row — the row linking `P` to
`owner` — and the collaboration rows of every other playlist are
unchanged. -/
theorem c6_addPlaylist_one_owner_collab (db : DB)
    (newPid newCid name owner P : String) (db' : DB)
    (h : addPlaylist db newPid newCid name owner = (.ok P, db')) :
    db'.collaborations = db.collaborations ++ [⟨newCid, P, owner⟩]
    ∧ db'.collaborations.length = db.collaborations.length + 1
    ∧ ∀ q, q ≠ P → db'.collaborations.filter (fun c => c.playlistId == q)
        = db.collaborations.filter (fun c => c.playlistId == q) := by
  unfold addPlaylist addCollaboration getUserById at h
  dsimp only at h
  cases hfu : db.users.find? (fun u => u.id == owner) with
  | none =>
      rw [hfu] at h
      exact absurd (congrArg Prod.fst h) (by simp)
  | some u =>
      rw [hfu] at h
      have h1 := congrArg Prod.fst h
      have h2 := congrArg Prod.snd h
      dsimp only at h1 h2
      have hPid : newPid = P := by
        injection h1
      subst hPid
      subst h2
      refine ⟨rfl, by simp, ?_⟩
      intro q hq
      rw [List.filter_append]
      have : (List.filter (fun c => c.playlistId == q)
          [(⟨newCid, newPid, owner⟩ : CollabRow)]) = [] := by
        simp [List.filter_cons]
        intro hcontra
        exact absurd hcontra.symm hq
      rw [this, List.append_nil]

/-- A store holding only the user `u1`. -/
def dbJustUser : DB :=
  { users := [⟨"u1", "alice", "Alice A"⟩]
    playlists := []
    collaborations := []
    songs := []
    playlistSongs := []
    activities := []
    likes := [] }

/-- Witness for C6 at a concrete store. -/
theorem c6_addPlaylist_witness :
    (addPlaylist dbJustUser "p9" "c9" "Mix" "u1").1 = .ok "p9"
    ∧ ((addPlaylist dbJustUser "p9" "c9" "Mix" "u1").2.collaborations
        = dbJustUser.collaborations ++ [⟨"c9", "p9", "u1"⟩]
      ∧ (addPlaylist dbJustUser "p9" "c9" "Mix" "u1").2.collaborations.length
        = dbJustUser.collaborations.length + 1
      ∧ (addPlaylist dbJustUser "p9" "c9" "Mix" "u1").2.collaborations.filter
          (fun c => c.playlistId == "other")
        = dbJustUser.collaborations.filter (fun c => c.playlistId == "other")) := by
  have ht := c6_addPlaylist_one_owner_collab dbJustUser "p9" "c9" "Mix" "u1" "p9"
    (addPlaylist dbJustUser "p9" "c9" "Mix" "u1").2 rfl
  exact ⟨rfl, ht.1, ht.2.1, ht.2.2 "other" (by decide)⟩

/-- A value held by the cache.  The handlers store the JSON
serialisation of one of three query results; `corrupt` stands for a
stored string that `JSON.parse` rejects. -/
inductive CacheVal where
  | playlistRows (rows : List PlaylistInfo)
  | songRows (rows : List SongRow)
  | activityRows (rows : List ActivityJoined)
  | corrupt
deriving DecidableEq, Repr

/-- A cache entry: value plus the expiry (in seconds) it was set with. -/
structure CacheEntry where
  val : CacheVal
  ttl : Nat
deriving DecidableEq, Repr

/-- The cache keyspace: an association list from key to entry. -/
def CacheMap : Type := List (String × CacheEntry)

instance : DecidableEq CacheMap := by
  unfold CacheMap; infer_instance

/-- Modelled from the spec: the cache client
(src/services/redis/CacheService.js) is not under src/.  Per §4.2 and the
`CachedValue` row of §3: a key/value store with expiry whose `get` of an
absent key is a cache fault, which callers treat exactly like a miss. -/
def cacheGet (c : CacheMap) (k : String) : Option CacheEntry :=
  (c.find? (fun e => e.1 == k)).map (fun e => e.2)

/-- Modelled from the spec: `set(key, value, ttl)` overwrites the key
with the value and the given expiry. -/
def cacheSet (c : CacheMap) (k : String) (v : CacheVal) (ttl : Nat) : CacheMap :=
  (k, ⟨v, ttl⟩) :: c.filter (fun e => !(e.1 == k))

/-- Modelled from the spec: `delete(key)` removes exactly that key. -/
def cacheDelete (c : CacheMap) (k : String) : CacheMap :=
  c.filter (fun e => !(e.1 == k))

/-- `JSON.parse(await cacheService.get(key))` for a playlist-list key:
`some rows` exactly when the key is present and parses as such a list;
an absent key (cache fault) or an unparsable value takes the catch
branch. -/
def parsePlaylists? (c : CacheMap) (k : String) : Option (List PlaylistInfo) :=
  match cacheGet c k with
  | some ⟨.playlistRows rows, _⟩ => some rows
  | _ => none

/-- As `parsePlaylists?`, for a playlist-songs key. -/
def parseSongs? (c : CacheMap) (k : String) : Option (List SongRow) :=
  match cacheGet c k with
  | some ⟨.songRows rows, _⟩ => some rows
  | _ => none

/-- As `parsePlaylists?`, for an activities key. -/
def parseActivities? (c : CacheMap) (k : String) : Option (List ActivityJoined) :=
  match cacheGet c k with
  | some ⟨.activityRows rows, _⟩ => some rows
  | _ => none

lemma cacheGet_cacheSet_self (c : CacheMap) (k : String) (v : CacheVal) (ttl : Nat) :
    cacheGet (cacheSet c k v ttl) k = some ⟨v, ttl⟩ := by
  simp [cacheGet, cacheSet]

lemma find?_filter_of_imp {α : Type} (l : List α) (p q : α → Bool)
    (h : ∀ x, p x = true → q x = true) :
    (l.filter q).find? p = l.find? p := by
  induction l with
  | nil => rfl
  | cons x xs ih =>
      rw [List.filter_cons]
      by_cases hq : q x
      · rw [if_pos hq, List.find?_cons, List.find?_cons]
        cases hp : p x
        · exact ih
        · rfl
      · have hp : p x = false := by
          cases hpx : p x
          · rfl
          · exact absurd (h x hpx) hq
        rw [if_neg hq, List.find?_cons, hp, ih]

lemma cacheGet_cacheDelete_self (c : CacheMap) (k : String) :
    cacheGet (cacheDelete c k) k = none := by
  unfold cacheGet cacheDelete
  have h : (c.filter (fun e => !(e.1 == k))).find? (fun e => e.1 == k) = none := by
    rw [List.find?_eq_none]
    intro e he
    have := (List.mem_filter.mp he).2
    simpa using this
  rw [h]
  rfl

lemma cacheGet_cacheDelete_other (c : CacheMap) (k k' : String) (hne : k' ≠ k) :
    cacheGet (cacheDelete c k) k' = cacheGet c k' := by
  unfold cacheGet cacheDelete
  rw [find?_filter_of_imp]
  intro e he
  have : e.1 = k' := by simpa using he
  simp [this, hne]

/-- An output row of `PlaylistsService.getPlaylistById` (part_013, lines
74-89): `playlists.*, users.username`. -/
structure PlaylistDetail where
  id : String
  name : String
  owner : String
  username : Option String
deriving DecidableEq, Repr

/-- `PlaylistsService.getPlaylistById` (part_013, lines 74-89):
`SELECT playlists.*, users.username FROM playlists LEFT JOIN users ON
users.id = playlists.owner WHERE playlists.id = $1`, then `rows[0]`;
`NotFoundError` when empty. -/
def getPlaylistById (db : DB) (pid : String) : Except Err PlaylistDetail :=
  match (leftJoin db.playlists db.users (fun p u => u.id == p.owner)).find?
      (fun r => r.1.id == pid) with
  | none => .error .notFound
  | some r => .ok ⟨r.1.id, r.1.name, r.1.owner, r.2.map (fun u => u.username)⟩

/-- `PlaylistSongsService.getSongsFromPlaylist` (part_012, lines 31-42):
`SELECT songs.id, songs.title, songs.performer FROM songs JOIN
playlist_songs ON playlist_songs.song_id = songs.id WHERE
playlist_songs.playlist_id = $1` (an inner join). -/
def getSongsFromPlaylistQuery (db : DB) (pid : String) : List SongRow :=
  ((db.songs.flatMap (fun s =>
      (db.playlistSongs.filter (fun ps => ps.songId == s.id)).map
        (fun ps => (s, ps)))).filter
    (fun r => r.2.playlistId == pid)).map (fun r => r.1)

/-- The observable outcome of a cached read handler: the response data,
the `X-Data-Source: cache` marker, the cache after the request, and the
primary-store queries issued (tagged by their leading table), in order. -/
structure ReadOut (α : Type) where
  data : α
  fromCache : Bool
  cache' : CacheMap
  dbq : List Table
deriving DecidableEq

/-- `PlaylistsHandler.getPlaylistsHandler`
(src/api/playlists/handler.js, lines 83-110).  In the `try` branch the
cached list is parsed and returned with the cache marker, but a leftover
debug statement (line 88) still runs the authoritative `getPlaylists`
query, whose result is only logged; the `catch` branch runs the query,
repopulates `playlists:<uid>` with expiry `60 * 30`, and returns without
the marker. -/
def getPlaylistsHandler (db : DB) (c : CacheMap) (uid : String) :
    ReadOut (List PlaylistInfo) :=
  match parsePlaylists? c ("playlists:" ++ uid) with
  | some rows => ⟨rows, true, c, [.playlists]⟩
  | none =>
      ⟨getPlaylists db uid, false,
        cacheSet c ("playlists:" ++ uid) (.playlistRows (getPlaylists db uid)) (60 * 30),
        [.playlists]⟩

/-- `PlaylistsHandler.getSongsFromPlaylist`
(src/api/playlists/handler.js, lines 197-229): `verifyPlaylistAccess`
and `getPlaylistById` run before the cache is consulted; only the songs
query itself is guarded by the `try` on the `songs:<pid>` key. -/
def getSongsFromPlaylistHandler (db : DB) (c : CacheMap) (pid uid : String) :
    Except Err (ReadOut (PlaylistDetail × List SongRow)) :=
  match verifyPlaylistAccess db pid uid with
  | .error e => .error e
  | .ok () =>
      match getPlaylistById db pid with
      | .error e => .error e
      | .ok pl =>
          match parseSongs? c ("songs:" ++ pid) with
          | some rows =>
              .ok ⟨(pl, rows), true, c,
                verifyPlaylistAccessQueries db pid uid ++ [.playlists]⟩
          | none =>
              .ok ⟨(pl, getSongsFromPlaylistQuery db pid), false,
                cacheSet c ("songs:" ++ pid)
                  (.songRows (getSongsFromPlaylistQuery db pid)) (60 * 30),
                verifyPlaylistAccessQueries db pid uid ++ [.playlists, .songs]⟩

/-- `PlaylistsHandler.getPlaylistSongActivitiesHandler`
(src/api/playlists/handler.js, lines 282-315): the `try` consults the
`activities:<pid>` key first; `verifyPlaylistAccess` and the activities
query run only in the `catch` branch. -/
def getPlaylistSongActivitiesHandler (db : DB) (c : CacheMap) (pid uid : String) :
    Except Err (ReadOut (String × List ActivityJoined)) :=
  match parseActivities? c ("activities:" ++ pid) with
  | some rows => .ok ⟨(pid, rows), true, c, []⟩
  | none =>
      match verifyPlaylistAccess db pid uid with
      | .error e => .error e
      | .ok () =>
          .ok ⟨(pid, getPlaylistSongActivities db pid), false,
            cacheSet c ("activities:" ++ pid)
              (.activityRows (getPlaylistSongActivities db pid)) (60 * 30),
            verifyPlaylistAccessQueries db pid uid ++ [.activities]⟩

/-- `PlaylistsService.deletePlaylistById` (part_013, lines 99-110):
`DELETE FROM playlists WHERE id = $1 RETURNING id`; `NotFoundError` when
no row was deleted. -/
def deletePlaylistById (db : DB) (pid : String) : Except Err DB :=
  if db.playlists.any (fun p => p.id == pid)
  then .ok { db with playlists := db.playlists.filter (fun p => !(p.id == pid)) }
  else .error .notFound

/-- `PlaylistsHandler.deletePlaylistHandler`
(src/api/playlists/handler.js, lines 125-140): owner check, playlist
deletion, then deletion of the `playlists:<caller>`, `activities:<pid>`
and `songs:<pid>` cache keys, in that order. -/
def deletePlaylistHandler (db : DB) (c : CacheMap) (pid uid : String) :
    Except Err (DB × CacheMap) :=
  match verifyPlaylistOwner db pid uid with
  | .error e => .error e
  | .ok () =>
      match deletePlaylistById db pid with
      | .error e => .error e
      | .ok db' =>
          .ok (db', cacheDelete (cacheDelete (cacheDelete c
            ("playlists:" ++ uid)) ("activities:" ++ pid)) ("songs:" ++ pid))

lemma cacheGet_cacheDelete (c : CacheMap) (k k' : String) :
    cacheGet (cacheDelete c k) k' = if k' = k then none else cacheGet c k' := by
  by_cases h : k' = k
  · rw [if_pos h, h]
    exact cacheGet_cacheDelete_self c k
  · rw [if_neg h]
    exact cacheGet_cacheDelete_other c k k' h

/-- C5.  A successful delete-playlist request removes exactly the three
cache keys `playlists:<caller>`, `songs:<pid>` and `activities:<pid>`;
every other cache entry is unchanged. -/
theorem c5_delete_playlist_cache_frame (db : DB) (c : CacheMap) (pid uid : String)
    (db' : DB) (c' : CacheMap)
    (h : deletePlaylistHandler db c pid uid = .ok (db', c')) :
    cacheGet c' ("playlists:" ++ uid) = none
    ∧ cacheGet c' ("activities:" ++ pid) = none
    ∧ cacheGet c' ("songs:" ++ pid) = none
    ∧ ∀ k, k ≠ "playlists:" ++ uid → k ≠ "activities:" ++ pid →
        k ≠ "songs:" ++ pid → cacheGet c' k = cacheGet c k := by
  unfold deletePlaylistHandler at h
  cases hvo : verifyPlaylistOwner db pid uid with
  | error e => rw [hvo] at h; exact absurd h (by simp)
  | ok v =>
      cases v
      rw [hvo] at h
      unfold deletePlaylistById at h
      by_cases hdel : db.playlists.any (fun p => p.id == pid)
      · rw [if_pos hdel] at h
        simp only [Except.ok.injEq, Prod.mk.injEq] at h
        obtain ⟨-, hc⟩ := h
        subst hc
        refine ⟨?_, ?_, ?_, ?_⟩
        · rw [cacheGet_cacheDelete, cacheGet_cacheDelete, cacheGet_cacheDelete]
          simp
        · rw [cacheGet_cacheDelete, cacheGet_cacheDelete, cacheGet_cacheDelete]
          simp
        · rw [cacheGet_cacheDelete, cacheGet_cacheDelete, cacheGet_cacheDelete]
          simp
        · intro k h1 h2 h3
          rw [cacheGet_cacheDelete, cacheGet_cacheDelete, cacheGet_cacheDelete]
          simp [h1, h2, h3]
      · rw [if_neg hdel] at h
        exact absurd h (by simp)

/-- The cache before the sample delete: the three keys the handler must
clear plus an unrelated key of another playlist. -/
def cDel0 : CacheMap :=
  [("playlists:u1", ⟨.corrupt, 0⟩), ("songs:p1", ⟨.corrupt, 0⟩),
    ("activities:p1", ⟨.corrupt, 0⟩), ("songs:p2", ⟨.corrupt, 0⟩)]

/-- The store after the sample delete. -/
def dbDelAfter : DB := { dbOwnerWithCollab with playlists := [] }

/-- The cache after the sample delete: only the unrelated key remains. -/
def cDelAfter : CacheMap := [("songs:p2", ⟨.corrupt, 0⟩)]

/-- Witness for C5 at a concrete store and cache. -/
theorem c5_delete_playlist_witness :
    deletePlaylistHandler dbOwnerWithCollab cDel0 "p1" "u1" = .ok (dbDelAfter, cDelAfter)
    ∧ (cacheGet cDelAfter ("playlists:" ++ "u1") = none
      ∧ cacheGet cDelAfter ("activities:" ++ "p1") = none
      ∧ cacheGet cDelAfter ("songs:" ++ "p1") = none
      ∧ cacheGet cDelAfter "songs:p2" = cacheGet cDel0 "songs:p2") := by
  have ht := c5_delete_playlist_cache_frame dbOwnerWithCollab cDel0 "p1" "u1"
    dbDelAfter cDelAfter rfl
  exact ⟨rfl, ht.1, ht.2.1, ht.2.2.1,
    ht.2.2.2 "songs:p2" (by decide) (by decide) (by decide)⟩

/-- A cache holding a parsable playlist list for `u1`. -/
def cPlaylistsHit : CacheMap :=
  [("playlists:u1", ⟨.playlistRows [⟨"p1", "Road Trip", some "alice"⟩], 1800⟩)]

/-- C3, counterexample.  On a cache hit the list-playlists handler still
issues the authoritative `getPlaylists` query against the primary store
(the leftover debug statement at handler.js line 88), returning the
cached rows with the cache marker: the claim's "issues no query to the
primary store" fails. -/
theorem c3_counterexample_hit_still_queries_primary :
    (getPlaylistsHandler dbOwnerWithCollab cPlaylistsHit "u1").fromCache = true
    ∧ (getPlaylistsHandler dbOwnerWithCollab cPlaylistsHit "u1").data
        = [⟨"p1", "Road Trip", some "alice"⟩]
    ∧ (getPlaylistsHandler dbOwnerWithCollab cPlaylistsHit "u1").dbq = [.playlists] :=
  ⟨rfl, rfl, rfl⟩

/-- C3, amended.  Per endpoint: a cache hit returns the cached value
with the cache marker and leaves the cache unchanged, but only the
activities endpoint issues no primary-store query — the list-playlists
endpoint still runs its authoritative query (leftover debug code), and
the songs endpoint runs the access check and playlist-metadata queries
before consulting the cache (though not the songs query).  A miss (or
fault) runs the authoritative query, repopulates the same key with a
1800-second expiry, and returns without the marker. -/
theorem c3_amended_cache_aside_per_endpoint (db : DB) (c : CacheMap) (uid pid : String) :
    (∀ rows, parsePlaylists? c ("playlists:" ++ uid) = some rows →
      getPlaylistsHandler db c uid = ⟨rows, true, c, [.playlists]⟩)
    ∧ (parsePlaylists? c ("playlists:" ++ uid) = none →
      getPlaylistsHandler db c uid
        = ⟨getPlaylists db uid, false,
            cacheSet c ("playlists:" ++ uid) (.playlistRows (getPlaylists db uid)) 1800,
            [.playlists]⟩
      ∧ cacheGet (cacheSet c ("playlists:" ++ uid)
            (.playlistRows (getPlaylists db uid)) 1800) ("playlists:" ++ uid)
          = some ⟨.playlistRows (getPlaylists db uid), 1800⟩)
    ∧ (∀ rows, parseActivities? c ("activities:" ++ pid) = some rows →
      getPlaylistSongActivitiesHandler db c pid uid = .ok ⟨(pid, rows), true, c, []⟩)
    ∧ (parseActivities? c ("activities:" ++ pid) = none →
      verifyPlaylistAccess db pid uid = .ok () →
      getPlaylistSongActivitiesHandler db c pid uid
        = .ok ⟨(pid, getPlaylistSongActivities db pid), false,
            cacheSet c ("activities:" ++ pid)
              (.activityRows (getPlaylistSongActivities db pid)) 1800,
            verifyPlaylistAccessQueries db pid uid ++ [.activities]⟩
      ∧ cacheGet (cacheSet c ("activities:" ++ pid)
            (.activityRows (getPlaylistSongActivities db pid)) 1800) ("activities:" ++ pid)
          = some ⟨.activityRows (getPlaylistSongActivities db pid), 1800⟩)
    ∧ (∀ pl rows, verifyPlaylistAccess db pid uid = .ok () →
      getPlaylistById db pid = .ok pl →
      parseSongs? c ("songs:" ++ pid) = some rows →
      getSongsFromPlaylistHandler db c pid uid
        = .ok ⟨(pl, rows), true, c, verifyPlaylistAccessQueries db pid uid ++ [.playlists]⟩)
    ∧ (∀ pl, verifyPlaylistAccess db pid uid = .ok () →
      getPlaylistById db pid = .ok pl →
      parseSongs? c ("songs:" ++ pid) = none →
      getSongsFromPlaylistHandler db c pid uid
        = .ok ⟨(pl, getSongsFromPlaylistQuery db pid), false,
            cacheSet c ("songs:" ++ pid) (.songRows (getSongsFromPlaylistQuery db pid)) 1800,
            verifyPlaylistAccessQueries db pid uid ++ [.playlists, .songs]⟩) := by
  refine ⟨?_, ?_, ?_, ?_, ?_, ?_⟩
  · intro rows hp
    unfold getPlaylistsHandler
    rw [hp]
  · intro hp
    refine ⟨?_, cacheGet_cacheSet_self ..⟩
    unfold getPlaylistsHandler
    rw [hp]
  · intro rows ha
    unfold getPlaylistSongActivitiesHandler
    rw [ha]
  · intro ha hacc
    refine ⟨?_, cacheGet_cacheSet_self ..⟩
    unfold getPlaylistSongActivitiesHandler
    rw [ha, hacc]
  · intro pl rows hacc hpl hs
    unfold getSongsFromPlaylistHandler
    rw [hacc, hpl, hs]
  · intro pl hacc hpl hs
    unfold getSongsFromPlaylistHandler
    rw [hacc, hpl, hs]

/-- A cache holding parsable (empty) values under all three keys for
`u1`/`p1`. -/
def cAllHit : CacheMap :=
  [("playlists:u1", ⟨.playlistRows [], 1800⟩), ("songs:p1", ⟨.songRows [], 1800⟩),
    ("activities:p1", ⟨.activityRows [], 1800⟩)]

/-- The empty cache: every lookup is a miss. -/
def cEmpty : CacheMap := []

/-- Witness for the C3 amended theorem: all six branches exercised at
concrete stores (hits against `cAllHit`, misses against `cEmpty`). -/
theorem c3_amended_witness :
    getPlaylistsHandler dbOwnerWithCollab cAllHit "u1"
      = ⟨[], true, cAllHit, [.playlists]⟩
    ∧ (getPlaylistsHandler dbOwnerWithCollab cEmpty "u1"
        = ⟨getPlaylists dbOwnerWithCollab "u1", false,
            cacheSet cEmpty ("playlists:" ++ "u1")
              (.playlistRows (getPlaylists dbOwnerWithCollab "u1")) 1800, [.playlists]⟩
      ∧ cacheGet (cacheSet cEmpty ("playlists:" ++ "u1")
            (.playlistRows (getPlaylists dbOwnerWithCollab "u1")) 1800) ("playlists:" ++ "u1")
          = some ⟨.playlistRows (getPlaylists dbOwnerWithCollab "u1"), 1800⟩)
    ∧ getPlaylistSongActivitiesHandler dbOwnerWithCollab cAllHit "p1" "u1"
      = .ok ⟨("p1", []), true, cAllHit, []⟩
    ∧ (getPlaylistSongActivitiesHandler dbOwnerWithCollab cEmpty "p1" "u1"
        = .ok ⟨("p1", getPlaylistSongActivities dbOwnerWithCollab "p1"), false,
            cacheSet cEmpty ("activities:" ++ "p1")
              (.activityRows (getPlaylistSongActivities dbOwnerWithCollab "p1")) 1800,
            verifyPlaylistAccessQueries dbOwnerWithCollab "p1" "u1" ++ [.activities]⟩
      ∧ cacheGet (cacheSet cEmpty ("activities:" ++ "p1")
            (.activityRows (getPlaylistSongActivities dbOwnerWithCollab "p1")) 1800)
            ("activities:" ++ "p1")
          = some ⟨.activityRows (getPlaylistSongActivities dbOwnerWithCollab "p1"), 1800⟩)
    ∧ getSongsFromPlaylistHandler dbOwnerWithCollab cAllHit "p1" "u1"
      = .ok ⟨(⟨"p1", "Road Trip", "u1", some "alice"⟩, []), true, cAllHit,
          verifyPlaylistAccessQueries dbOwnerWithCollab "p1" "u1" ++ [.playlists]⟩
    ∧ getSongsFromPlaylistHandler dbOwnerWithCollab cEmpty "p1" "u1"
      = .ok ⟨(⟨"p1", "Road Trip", "u1", some "alice"⟩,
            getSongsFromPlaylistQuery dbOwnerWithCollab "p1"), false,
          cacheSet cEmpty ("songs:" ++ "p1")
            (.songRows (getSongsFromPlaylistQuery dbOwnerWithCollab "p1")) 1800,
          verifyPlaylistAccessQueries dbOwnerWithCollab "p1" "u1" ++ [.playlists, .songs]⟩ := by
  have t1 := c3_amended_cache_aside_per_endpoint dbOwnerWithCollab cAllHit "u1" "p1"
  have t2 := c3_amended_cache_aside_per_endpoint dbOwnerWithCollab cEmpty "u1" "p1"
  exact ⟨t1.1 [] rfl, t2.2.1 rfl, t1.2.2.1 [] rfl, t2.2.2.2.1 rfl rfl,
    t1.2.2.2.2.1 ⟨"p1", "Road Trip", "u1", some "alice"⟩ [] rfl rfl rfl,
    t2.2.2.2.2.2 ⟨"p1", "Road Trip", "u1", some "alice"⟩ rfl rfl rfl⟩

/-- A cache holding parsable activities and songs values for `p1`. -/
def cC4 : CacheMap :=
  [("activities:p1", ⟨.activityRows [], 1800⟩), ("songs:p1", ⟨.songRows [], 1800⟩)]

/-- C4, counterexample.  A caller (`u2`) who is neither owner nor
collaborator of `p1` hits the songs cache, yet the songs read fails with
`AuthorizationError`: `verifyPlaylistAccess` runs before the cache is
consulted on that endpoint, contradicting the claim that the check is
skipped on the songs cache-hit path. -/
theorem c4_counterexample_songs_hit_still_checks_access :
    parseSongs? cC4 ("songs:" ++ "p1") = some []
    ∧ verifyPlaylistAccess dbOwnerNoCollab "p1" "u2" = .error .authorization
    ∧ getSongsFromPlaylistHandler dbOwnerNoCollab cC4 "p1" "u2" = .error .authorization :=
  ⟨rfl, rfl, rfl⟩

/-- C4, amended.  The access check is skipped on the cache-hit path only
for the activities read: a hit on `activities:<pid>` returns the cached
data to any authenticated caller, with no authorization performed.  The
songs read always runs `verifyPlaylistAccess` before consulting the
cache, so an unauthorized caller receives its error even on a hit. -/
theorem c4_amended_access_skip_only_for_activities (db : DB) (c : CacheMap)
    (pid uid : String) :
    (∀ rows, parseActivities? c ("activities:" ++ pid) = some rows →
      getPlaylistSongActivitiesHandler db c pid uid = .ok ⟨(pid, rows), true, c, []⟩)
    ∧ (∀ e, verifyPlaylistAccess db pid uid = .error e →
      getSongsFromPlaylistHandler db c pid uid = .error e) := by
  constructor
  · intro rows ha
    unfold getPlaylistSongActivitiesHandler
    rw [ha]
  · intro e hacc
    unfold getSongsFromPlaylistHandler
    rw [hacc]

/-- Witness for the C4 amended theorem: the unauthorized caller `u2`
reads `p1`'s cached activities successfully yet is rejected on the songs
endpoint despite its cache hit. -/
theorem c4_amended_witness :
    getPlaylistSongActivitiesHandler dbOwnerNoCollab cC4 "p1" "u2"
      = .ok ⟨("p1", []), true, cC4, []⟩
    ∧ getSongsFromPlaylistHandler dbOwnerNoCollab cC4 "p1" "u2" = .error .authorization := by
  have t := c4_amended_access_skip_only_for_activities dbOwnerNoCollab cC4 "p1" "u2"
  exact ⟨t.1 [] rfl, t.2 .authorization rfl⟩

end OpenMusic
